import Mathlib

/-!
Shallow embedding of the goaseprite animation-playback library
(`goaseprite.go`, current revision: the version exposing `Player` with
`Play` / `Update` / `SetFrameIndex` / `Clone`).

Modelling conventions:
* Go `int` / `int32` fields are modelled as `Int` (no arithmetic in the
  embedded code comes close to overflow, and no claim concerns it).
* Go `float32` time values (`Duration`, `frameCounter`, `PlaySpeed`, `dt`)
  are modelled as exact rationals `ℚ`; the claims at issue concern the
  control flow and index arithmetic of the playback engine, which only use
  the ordered-field operations (`+`, `-`, `*`, `/`, `<=`) that `ℚ` shares
  with float arithmetic.
* The `File *File` back-pointer inside `Tag` is used by the code only via
  `Tag.IsEmpty` (`tag.File == nil`) and via Go struct equality of tags; it
  is modelled as the Bool `fileAttached` (`true` iff the pointer is non-nil).
* Callbacks (`OnLoop` etc.) are Go function pointers that may be nil; they
  are modelled as `Option Nat` handles (`none` = nil), and an invocation of
  a registered callback is recorded as a `PlaybackEvent` in an output list,
  in invocation order.
* `Update`'s catch-up `for` loop subtracts the fixed, once-read `frameDur`
  from `frameCounter` each iteration.  When `frameDur > 0` that loop
  performs exactly `(⌊frameCounter / frameDur⌋).toNat` iterations, which is
  used as structural fuel; when `frameDur <= 0` and the condition holds the
  Go loop never terminates, and the model stops instead (no claim touches
  that degenerate case).
* JSON decoding (`Read`) goes through the external gjson library and is not
  embedded, except for the frame-name ordering step (the sort comparator of
  `Read`, lines 410-420), which claim C9 is about.
-/

namespace Goaseprite

/-- Playback constant `PlayForward`. -/
def PlayForward : String := "forward"

/-- Playback constant `PlayBackward`. -/
def PlayBackward : String := "reverse"

/-- Playback constant `PlayPingPong`. -/
def PlayPingPong : String := "pingpong"

/-- The error string `ErrorNoTagByName`. -/
def ErrorNoTagByName : String := "no tags by name"

/-- `Frame` struct: position on-sheet and duration (seconds). -/
structure Frame where
  x : Int
  y : Int
  duration : ℚ
deriving DecidableEq

/-- `Tag` struct.  `fileAttached` models whether the `File *File`
back-pointer is non-nil (Go struct equality on `Tag` compares that pointer;
all tags of one `File` carry the same pointer). -/
structure Tag where
  name : String
  start : Int
  «end» : Int
  direction : String
  fileAttached : Bool
deriving DecidableEq

/-- `Tag.IsEmpty`: `tag.File == nil`. -/
def Tag.IsEmpty (tag : Tag) : Bool := !tag.fileAttached

/-- `Layer` struct. -/
structure Layer where
  name : String
  opacity : Int
  blendMode : String
deriving DecidableEq

/-- `SliceKey` struct. -/
structure SliceKey where
  frame : Int
  x : Int
  y : Int
  w : Int
  h : Int
deriving DecidableEq

/-- `Slice` struct. -/
structure Slice where
  name : String
  data : String
  keys : List SliceKey
  color : Int
deriving DecidableEq

/-- `File` struct. -/
structure File where
  path : String
  imagePath : String
  width : Int
  height : Int
  frameWidth : Int
  frameHeight : Int
  frames : List Frame
  tags : List Tag
  layers : List Layer
  slices : List Slice
deriving DecidableEq

/-- `Player` struct.  The dead field `updateRanFirst` (declared but never
read or written by the code) is omitted.  Field names follow the Go struct
in lowerCamel. -/
structure Player where
  file : File
  playSpeed : ℚ
  currentTag : Tag
  frameIndex : Int
  prevFrameIndex : Int
  frameCounter : ℚ
  prevUVX : ℚ
  prevUVY : ℚ
  onLoop : Option Nat
  onFrameChange : Option Nat
  onTagEnter : Option Nat
  onTagExit : Option Nat
  playDirection : Int
deriving DecidableEq

/-- An invocation of a registered callback, recorded in invocation order. -/
inductive PlaybackEvent where
  | loop : PlaybackEvent
  | frameChange : PlaybackEvent
  | tagEnter : Tag → PlaybackEvent
  | tagExit : Tag → PlaybackEvent
deriving DecidableEq

/-- The Go zero value of `Tag` (all fields zero, `File` pointer nil). -/
def Tag.zero : Tag :=
  { name := "", start := 0, «end» := 0, direction := "", fileAttached := false }

/-- `File.CreatePlayer`: `&Player{File: file, PlaySpeed: 1}` — every other
field takes its Go zero value. -/
def File.CreatePlayer (file : File) : Player :=
  { file := file
    playSpeed := 1
    currentTag := Tag.zero
    frameIndex := 0
    prevFrameIndex := 0
    frameCounter := 0
    prevUVX := 0
    prevUVY := 0
    onLoop := none
    onFrameChange := none
    onTagEnter := none
    onTagExit := none
    playDirection := 0 }

/-- `Player.Clone`. -/
def Player.Clone (player : Player) : Player :=
  let newPlayer := player.file.CreatePlayer
  { newPlayer with
    playSpeed := player.playSpeed
    currentTag := player.currentTag
    frameIndex := player.frameIndex
    frameCounter := player.frameCounter
    onLoop := player.onLoop
    onFrameChange := player.onFrameChange
    onTagEnter := player.onTagEnter
    onTagExit := player.onTagExit }

/-- `player.File.Frames[i]`.  Go panics when `i` is out of range; the model
totalises with a zero frame (no claim evaluates an out-of-range access). -/
def frameAt (frames : List Frame) (i : Int) : Frame :=
  frames.getD i.toNat { x := 0, y := 0, duration := 0 }

/-- `Player.CurrentFrame`: the frame at `frameIndex` plus an ok flag. -/
def Player.CurrentFrame (player : Player) : Frame × Bool :=
  if !player.currentTag.IsEmpty then
    (frameAt player.file.frames player.frameIndex, true)
  else
    ({ x := 0, y := 0, duration := 0 }, false)

/-- `Player.CurrentUVCoords`: `(x/width, y/height)` or `(-1, -1)`.
Go divides float64s (division by a zero dimension giving ±Inf); the model
uses `ℚ` division, whose `x / 0 = 0` convention is never exercised by the
claims. -/
def Player.CurrentUVCoords (player : Player) : ℚ × ℚ :=
  let fr := player.CurrentFrame
  if fr.2 then
    ((fr.1.x : ℚ) / (player.file.width : ℚ), (fr.1.y : ℚ) / (player.file.height : ℚ))
  else
    (-1, -1)

/-- `Player.pollTagChanges`: the OnTagExit invocations (for each tag whose
span contained `prevFrameIndex` but not `frameIndex`), in file-tag order,
followed by the OnTagEnter invocations. -/
def Player.pollTagChanges (player : Player) : List PlaybackEvent :=
  (if player.onTagExit.isSome then
    (player.file.tags.filter fun tag =>
      decide ((player.prevFrameIndex ≥ tag.start ∧ player.prevFrameIndex ≤ tag.«end») ∧
        (player.frameIndex < tag.start ∨ player.frameIndex > tag.«end»))).map PlaybackEvent.tagExit
  else []) ++
  (if player.onTagEnter.isSome then
    (player.file.tags.filter fun tag =>
      decide ((player.prevFrameIndex < tag.start ∨ player.prevFrameIndex > tag.«end») ∧
        (player.frameIndex ≥ tag.start ∧ player.frameIndex ≤ tag.«end»))).map PlaybackEvent.tagEnter
  else [])

/-- `Player.Play`.  Returns the new state, the callback invocations, and
the returned `error` (`none` = nil).  The Go loop finds the first tag whose
name matches and breaks; on a nonexistent name it returns the error without
mutating anything. -/
def Player.Play (player : Player) (tagName : String) :
    Player × List PlaybackEvent × Option String :=
  match player.file.tags.find? (fun anim => anim.name == tagName) with
  | none => (player, [], some ErrorNoTagByName)
  | some anim =>
    if anim = player.currentTag then
      (player, [], none)
    else
      let p1 : Player :=
        { player with
          prevFrameIndex := if !player.currentTag.IsEmpty then -1 else player.frameIndex
          currentTag := anim
          frameCounter := 0 }
      let p2 : Player :=
        if anim.direction = PlayBackward then
          { p1 with playDirection := -1, frameIndex := p1.currentTag.«end» }
        else
          { p1 with playDirection := 1, frameIndex := p1.currentTag.start }
      (p2, p2.pollTagChanges, none)

/-- The boundary policy of `Update`'s catch-up loop (lines 222-245),
applied after `frameIndex += playDirection`. -/
def applyBoundary (anim : Tag) (p : Player) : Player × List PlaybackEvent :=
  if anim.direction = PlayPingPong then
    if p.frameIndex > anim.«end» then
      ({ p with frameIndex := anim.«end» - 1, playDirection := p.playDirection * (-1) }, [])
    else if p.frameIndex < anim.start then
      ({ p with frameIndex := anim.start + 1, playDirection := p.playDirection * (-1) },
        if p.onLoop.isSome then [PlaybackEvent.loop] else [])
    else
      (p, [])
  else if p.playDirection > 0 ∧ p.frameIndex > anim.«end» then
    ({ p with frameIndex := p.frameIndex - (anim.«end» - anim.start + 1) },
      if p.onLoop.isSome then [PlaybackEvent.loop] else [])
  else if p.playDirection < 0 ∧ p.frameIndex < anim.start then
    ({ p with frameIndex := p.frameIndex + (anim.«end» - anim.start + 1) },
      if p.onLoop.isSome then [PlaybackEvent.loop] else [])
  else
    (p, [])

/-- One iteration of `Update`'s catch-up loop body (lines 216-251):
subtract the (once-read) `frameDur`, record `prevFrameIndex`, step
`frameIndex` by `playDirection`, apply the boundary policy, then the
OnFrameChange invocation and `pollTagChanges`. -/
def updateStep (anim : Tag) (frameDur : ℚ) (p : Player) : Player × List PlaybackEvent :=
  let p1 : Player :=
    { p with
      frameCounter := p.frameCounter - frameDur
      prevFrameIndex := p.frameIndex
      frameIndex := p.frameIndex + p.playDirection }
  let r := applyBoundary anim p1
  let p2 := r.1
  let changeEvents :=
    if p2.frameIndex ≠ p2.prevFrameIndex ∧ p2.onFrameChange.isSome then
      [PlaybackEvent.frameChange]
    else []
  (p2, r.2 ++ changeEvents ++ p2.pollTagChanges)

/-- The catch-up loop `for frameCounter >= frameDur` with structural fuel.
`frameDur` is the value read once before the loop and never re-read
(line 210 of the source); the loop condition is checked each iteration. -/
def updateLoop (anim : Tag) (frameDur : ℚ) : Nat → Player → Player × List PlaybackEvent
  | 0, p => (p, [])
  | Nat.succ fuel, p =>
    if p.frameCounter ≥ frameDur then
      let r := updateStep anim frameDur p
      let rest := updateLoop anim frameDur fuel r.1
      (rest.1, r.2 ++ rest.2)
    else
      (p, [])

/-- `Player.Update`.  When `frameDur > 0`, `(⌊frameCounter / frameDur⌋).toNat`
is exactly the number of iterations the Go loop performs (each iteration
subtracts the same fixed `frameDur`); with `frameDur ≤ 0` and the condition
true the Go loop would not terminate, and the model performs no iteration. -/
def Player.Update (player : Player) (dt : ℚ) : Player × List PlaybackEvent :=
  let anim := player.currentTag
  if !anim.IsEmpty then
    let p1 : Player := { player with frameCounter := player.frameCounter + dt * player.playSpeed }
    let frameDur := (frameAt p1.file.frames p1.frameIndex).duration
    let uv := p1.CurrentUVCoords
    let p2 : Player := { p1 with prevUVX := uv.1, prevUVY := uv.2 }
    let fuel := if 0 < frameDur then (⌊p2.frameCounter / frameDur⌋).toNat else 0
    updateLoop anim frameDur fuel p2
  else
    (player, [])

/-- `Player.SetFrameIndex`: `frameIndex = currentTag.Start + frameIndex`,
clamped (only) above to `currentTag.End`; `frameCounter = 0`; no-op when no
tag is selected. -/
def Player.SetFrameIndex (player : Player) (frameIndex : Int) : Player :=
  if !player.currentTag.IsEmpty then
    let p1 : Player := { player with frameIndex := player.currentTag.start + frameIndex }
    let p2 : Player :=
      if p1.frameIndex > p1.currentTag.«end» then
        { p1 with frameIndex := p1.currentTag.«end» }
      else p1
    { p2 with frameCounter := 0 }
  else
    player

/-- Catch-up loop following the SPEC's words rather than the code, for
comparison with `updateLoop` (claim C3): the spec's §4.2 step 2 has the
loop condition re-read `frames[frameIndex].duration` after each step and
subtract "that frame's duration".  The loop body is otherwise identical
(`updateStep`).  Structural fuel bounds the while loop. -/
def updateLoopReread (anim : Tag) : Nat → Player → Player × List PlaybackEvent
  | 0, p => (p, [])
  | Nat.succ fuel, p =>
    let frameDur := (frameAt p.file.frames p.frameIndex).duration
    if p.frameCounter ≥ frameDur then
      let r := updateStep anim frameDur p
      let rest := updateLoopReread anim fuel r.1
      (rest.1, r.2 ++ rest.2)
    else
      (p, [])

/-- The spec-worded variant of `Player.Update` built on `updateLoopReread`
(duration re-read each iteration); used only to compare with the code's
`Player.Update` in claim C3. -/
def UpdateReread (fuel : Nat) (player : Player) (dt : ℚ) : Player × List PlaybackEvent :=
  let anim := player.currentTag
  if !anim.IsEmpty then
    let p1 : Player := { player with frameCounter := player.frameCounter + dt * player.playSpeed }
    let uv := p1.CurrentUVCoords
    let p2 : Player := { p1 with prevUVX := uv.1, prevUVY := uv.2 }
    updateLoopReread anim fuel p2
  else
    (player, [])

/-- `strings.LastIndex(s, c)` over the characters of the string (the
frame-name keys at issue are ASCII, where Go's byte indices coincide with
character indices): index of the last occurrence of `c`, `-1` if absent. -/
def lastIdx : List Char → Char → Int
  | [], _ => -1
  | a :: rest, c =>
    let r := lastIdx rest c
    if r ≥ 0 then r + 1 else if a = c then 0 else -1

/-- Digit accumulator of `strconv.ParseInt`: `none` on any non-digit
character (syntax error). -/
def parseDigitsAux : List Char → Nat → Option Nat
  | [], acc => some acc
  | c :: rest, acc =>
    if c.isDigit then parseDigitsAux rest (acc * 10 + (c.toNat - 48)) else none

/-- `strconv.ParseInt(s, 10, 32)` as used by `Read`'s sort comparator: the
comparator discards the error, so a syntax error (empty string or
non-digit) contributes value 0, and a range error contributes the
maximum-magnitude int32 of the appropriate sign. -/
def parseIntGo (l : List Char) : Int :=
  let sd : Int × List Char :=
    match l with
    | '+' :: rest => (1, rest)
    | '-' :: rest => (-1, rest)
    | _ => (1, l)
  match sd.2 with
  | [] => 0
  | ds =>
    match parseDigitsAux ds 0 with
    | none => 0
    | some v => if sd.1 = 1 then min (v : Int) (2 ^ 31 - 1) else max (-(v : Int)) (-(2 ^ 31))

/-- The numeric ordinal a frame-name key is sorted by in `Read`
(lines 410-419): the integer parsed from the characters strictly between
the last space and the last dot.  (Go would panic when the dot index is
below the space index; the model then parses an empty slice to 0 — the
claims only use well-formed keys.) -/
def frameKeyOrdinal (s : String) : Int :=
  let l := s.toList
  let fi := lastIdx l ' ' + 1
  let li := lastIdx l '.'
  parseIntGo ((l.drop fi.toNat).take (li - fi).toNat)

/-- The `less` comparator passed to `sort.Slice` in `Read`. -/
def frameNameLess (x y : String) : Bool :=
  decide (frameKeyOrdinal x < frameKeyOrdinal y)

/-- Insertion of one key into a sorted key list under `frameNameLess`. -/
def insertFrameName (x : String) : List String → List String
  | [] => [x]
  | y :: rest => if frameNameLess x y then x :: y :: rest else y :: insertFrameName x rest

/-- `sort.Slice(frameNames, less)` of `Read`, modelled as an insertion sort
over the same comparator; Go's sort is an unspecified (unstable) comparison
sort, but on keys with pairwise distinct ordinals every comparison sort
produces the same output. -/
def sortFrameNames : List String → List String
  | [] => []
  | x :: rest => insertFrameName x (sortFrameNames rest)

/-- `frameIndex` lies in the selected tag's inclusive span. -/
abbrev InRange (anim : Tag) (i : Int) : Prop :=
  anim.start ≤ i ∧ i ≤ anim.«end»

/-- Well-formedness produced by `Read`: every tag of a `File` has
`Start <= End` (the spec's §3 invariant) and a non-nil `File` pointer. -/
abbrev WfFile (f : File) : Prop :=
  ∀ t ∈ f.tags, t.start ≤ t.«end» ∧ t.fileAttached = true

/-- Replace a player's frame table, leaving everything else intact (used to
state that `Update` reads no frame other than the one it starts on). -/
def setFrames (q : Player) (fr : List Frame) : Player :=
  { q with file := { q.file with frames := fr } }

/-- Trace harness for the ping-pong scenario: the `frameIndex` and the
number of OnLoop invocations after each of `n` successive `Update 1`
calls. -/
def traceUpdates : Nat → Player → List (Int × Nat)
  | 0, _ => []
  | Nat.succ n, p =>
    let r := p.Update 1
    (r.1.frameIndex, r.2.count PlaybackEvent.loop) :: traceUpdates n r.1

/-! Concrete fixtures used by the scenario claims. -/

/-- A forward tag spanning frames 2..5 (claim C5's scenario). -/
def tagFW : Tag :=
  { name := "walk", start := 2, «end» := 5, direction := "forward", fileAttached := true }

/-- Six frames of one second each. -/
def framesFW : List Frame :=
  [{ x := 0, y := 0, duration := 1 }, { x := 0, y := 0, duration := 1 },
   { x := 0, y := 0, duration := 1 }, { x := 0, y := 0, duration := 1 },
   { x := 0, y := 0, duration := 1 }, { x := 0, y := 0, duration := 1 }]

def fileFW : File :=
  { path := "", imagePath := "", width := 6, height := 1, frameWidth := 1, frameHeight := 1,
    frames := framesFW, tags := [tagFW], layers := [], slices := [] }

/-- Player on `tagFW` sitting at frame 5, moving forward, OnLoop registered. -/
def playerFW : Player :=
  { fileFW.CreatePlayer with
    currentTag := tagFW
    frameIndex := 5
    playDirection := 1
    onLoop := some 0 }

/-- A ping-pong tag spanning frames 0..3 (claim C6's scenario). -/
def tagPP : Tag :=
  { name := "pp", start := 0, «end» := 3, direction := "pingpong", fileAttached := true }

/-- Four frames of one second each. -/
def framesPP : List Frame :=
  [{ x := 0, y := 0, duration := 1 }, { x := 0, y := 0, duration := 1 },
   { x := 0, y := 0, duration := 1 }, { x := 0, y := 0, duration := 1 }]

def filePP : File :=
  { path := "", imagePath := "", width := 4, height := 1, frameWidth := 1, frameHeight := 1,
    frames := framesPP, tags := [tagPP], layers := [], slices := [] }

/-- Fresh player on `filePP` with OnLoop registered, before `Play "pp"`. -/
def playerPPBase : Player := { filePP.CreatePlayer with onLoop := some 0 }

/-- The state `Play "pp"` produces from `playerPPBase` (proved inside C6's
theorem): at frame 0, moving forward. -/
def playerPP : Player :=
  { filePP.CreatePlayer with
    currentTag := tagPP
    frameIndex := 0
    playDirection := 1
    onLoop := some 0 }

/-- A forward tag over two frames with very unequal durations (claim C3). -/
def tagC3 : Tag :=
  { name := "t", start := 0, «end» := 1, direction := "forward", fileAttached := true }

/-- Frame 0 lasts 1 s, frame 1 lasts 10 s. -/
def framesC3 : List Frame :=
  [{ x := 0, y := 0, duration := 1 }, { x := 0, y := 0, duration := 10 }]

/-- Same frame 0, different later frame (for the C3 witness). -/
def framesC3Alt : List Frame :=
  [{ x := 0, y := 0, duration := 1 }, { x := 0, y := 0, duration := 99 }]

def fileC3 : File :=
  { path := "", imagePath := "", width := 2, height := 1, frameWidth := 1, frameHeight := 1,
    frames := framesC3, tags := [tagC3], layers := [], slices := [] }

/-- Player on `tagC3` at frame 0 with OnLoop registered. -/
def playerC3 : Player :=
  { fileC3.CreatePlayer with
    currentTag := tagC3
    frameIndex := 0
    playDirection := 1
    onLoop := some 0 }

/-- A single-frame ping-pong tag (claim C1's boundary case). -/
def tagOne : Tag :=
  { name := "one", start := 0, «end» := 0, direction := "pingpong", fileAttached := true }

def framesOne : List Frame := [{ x := 0, y := 0, duration := 1 }]

def fileOne : File :=
  { path := "", imagePath := "", width := 1, height := 1, frameWidth := 1, frameHeight := 1,
    frames := framesOne, tags := [tagOne], layers := [], slices := [] }

/-- Player on the single-frame ping-pong tag, at its only frame. -/
def playerOne : Player :=
  { fileOne.CreatePlayer with
    currentTag := tagOne
    frameIndex := 0
    playDirection := 1
    onLoop := some 0 }

/-- Two disjoint forward tags (claims C2, C4, C7, C8 and the witnesses). -/
def tagA : Tag := { name := "a", start := 0, «end» := 1, direction := "forward", fileAttached := true }

def tagB : Tag := { name := "b", start := 2, «end» := 3, direction := "forward", fileAttached := true }

def framesAB : List Frame :=
  [{ x := 0, y := 0, duration := 1 }, { x := 0, y := 0, duration := 1 },
   { x := 0, y := 0, duration := 1 }, { x := 0, y := 0, duration := 1 }]

def fileAB : File :=
  { path := "", imagePath := "", width := 4, height := 1, frameWidth := 1, frameHeight := 1,
    frames := framesAB, tags := [tagA, tagB], layers := [], slices := [] }

/-- Player with `tagA` selected and `frameIndex = 3` (claim C2's failing
input: a tag WAS previously selected). -/
def playerWithTag : Player :=
  { fileAB.CreatePlayer with
    currentTag := tagA
    frameIndex := 3
    playDirection := 1 }

/-- Player with no tag selected and `frameIndex = 3`. -/
def playerNoTag : Player := { fileAB.CreatePlayer with frameIndex := 3 }

/-- Player with `tagB` (frames 2..3) selected, at frame 2. -/
def playerC8 : Player :=
  { fileAB.CreatePlayer with
    currentTag := tagB
    frameIndex := 2
    playDirection := 1 }

/-! Helper lemmas shared by the claim theorems. -/

/-- One catch-up-loop iteration keeps `playDirection` in `{1, -1}`, keeps
`frameIndex` inside the tag's span (for a ping-pong tag this needs a span
of at least two frames), and leaves `currentTag` untouched. -/
theorem updateStep_inv (anim : Tag) (d : ℚ) (p : Player)
    (hdir : p.playDirection = 1 ∨ p.playDirection = -1)
    (hin : InRange anim p.frameIndex)
    (hpp : anim.direction = PlayPingPong → anim.start < anim.«end») :
    ((updateStep anim d p).1.playDirection = 1 ∨ (updateStep anim d p).1.playDirection = -1) ∧
    InRange anim (updateStep anim d p).1.frameIndex ∧
    (updateStep anim d p).1.currentTag = p.currentTag := by
  obtain ⟨hl, hr⟩ := hin
  simp only [updateStep, applyBoundary, InRange]
  rcases hdir with hd | hd <;>
    simp only [hd] <;> split_ifs <;> simp_all <;> omega

/-- The catch-up loop preserves the invariant of `updateStep_inv` for any
fuel. -/
theorem updateLoop_inv (anim : Tag) (d : ℚ)
    (hpp : anim.direction = PlayPingPong → anim.start < anim.«end») :
    ∀ (fuel : Nat) (p : Player),
      (p.playDirection = 1 ∨ p.playDirection = -1) →
      InRange anim p.frameIndex →
      ((updateLoop anim d fuel p).1.playDirection = 1 ∨
        (updateLoop anim d fuel p).1.playDirection = -1) ∧
      InRange anim (updateLoop anim d fuel p).1.frameIndex ∧
      (updateLoop anim d fuel p).1.currentTag = p.currentTag
  | 0, p, hdir, hin => by
    simpa [updateLoop] using ⟨hdir, hin⟩
  | Nat.succ fuel, p, hdir, hin => by
    simp only [updateLoop]
    split_ifs with hc
    · have hstep := updateStep_inv anim d p hdir hin hpp
      have hrec := updateLoop_inv anim d hpp fuel (updateStep anim d p).1 hstep.1 hstep.2.1
      exact ⟨hrec.1, hrec.2.1, hrec.2.2.trans hstep.2.2⟩
    · exact ⟨hdir, hin, rfl⟩

/-- `Update` keeps `frameIndex` inside the selected tag's span, given
`playDirection` in `{1, -1}`, a starting index in the span, and (for a
ping-pong tag) a span of at least two frames. -/
theorem Update_inv (p : Player) (dt : ℚ)
    (hne : p.currentTag.IsEmpty = false)
    (hdir : p.playDirection = 1 ∨ p.playDirection = -1)
    (hin : InRange p.currentTag p.frameIndex)
    (hpp : p.currentTag.direction = PlayPingPong → p.currentTag.start < p.currentTag.«end») :
    InRange p.currentTag (p.Update dt).1.frameIndex ∧
    (p.Update dt).1.currentTag = p.currentTag := by
  simp only [Player.Update, hne, Bool.not_false, if_true]
  exact ⟨(updateLoop_inv _ _ hpp _ _ (by exact hdir) (by exact hin)).2.1,
    (updateLoop_inv _ _ hpp _ _ (by exact hdir) (by exact hin)).2.2⟩

/-- A successful `Play` lands `frameIndex` inside the selected tag's span
(well-formed tags; if a tag was already selected its index was in span). -/
theorem Play_inRange (p : Player) (tagName : String)
    (hwf : WfFile p.file)
    (hprev : p.currentTag.IsEmpty = false → InRange p.currentTag p.frameIndex)
    (hok : (p.Play tagName).2.2 = none) :
    InRange (p.Play tagName).1.currentTag (p.Play tagName).1.frameIndex := by
  unfold Player.Play at *
  cases hfind : p.file.tags.find? (fun anim => anim.name == tagName) with
  | none => simp [hfind] at hok
  | some anim =>
    have hmem := List.mem_of_find?_eq_some hfind
    obtain ⟨hse, hat⟩ := hwf anim hmem
    simp only [hfind] at hok ⊢
    by_cases heq : anim = p.currentTag
    · rw [if_pos heq]
      subst heq
      exact hprev (by simp [Tag.IsEmpty, hat])
    · rw [if_neg heq]
      split_ifs <;> simp [InRange, hse]

/-- `SetFrameIndex` with a non-negative argument lands in the span. -/
theorem SetFrameIndex_inRange (p : Player) (n : Int)
    (hne : p.currentTag.IsEmpty = false)
    (hn : 0 ≤ n)
    (hse : p.currentTag.start ≤ p.currentTag.«end») :
    InRange p.currentTag (p.SetFrameIndex n).frameIndex := by
  simp only [Player.SetFrameIndex, hne, Bool.not_false, if_true]
  split_ifs with h <;> simp [InRange] <;> omega

/-- `updateStep` commutes with replacing the frame table: the loop body
reads no frame data (its duration is the explicit `d` argument). -/
theorem updateStep_setFrames (anim : Tag) (d : ℚ) (q : Player) (fr : List Frame) :
    updateStep anim d (setFrames q fr) =
      (setFrames (updateStep anim d q).1 fr, (updateStep anim d q).2) := by
  dsimp only [updateStep, applyBoundary, setFrames, Player.pollTagChanges]
  split_ifs <;> rfl

/-- The whole catch-up loop commutes with replacing the frame table. -/
theorem updateLoop_setFrames (anim : Tag) (d : ℚ) :
    ∀ (fuel : Nat) (q : Player) (fr : List Frame),
      updateLoop anim d fuel (setFrames q fr) =
        (setFrames (updateLoop anim d fuel q).1 fr, (updateLoop anim d fuel q).2)
  | 0, q, fr => rfl
  | Nat.succ fuel, q, fr => by
    have hrec := updateLoop_setFrames anim d fuel
    simp only [updateLoop]
    by_cases h : q.frameCounter ≥ d
    · rw [if_pos h, if_pos (show (setFrames q fr).frameCounter ≥ d from h)]
      simp only [updateStep_setFrames, hrec]
    · rw [if_neg h, if_neg (show ¬(setFrames q fr).frameCounter ≥ d from h)]

/-! Claim theorems. -/

/-- C1 (amended): with a tag selected, `frameIndex` stays within
`[currentTag.start, currentTag.end]` after a successful `Play` (with
well-formed tags), after `SetFrameIndex` with a NON-NEGATIVE argument, and
after `Update` with any delta provided the selected tag is not a
single-frame ping-pong tag.  The original claim fails in two places (see
the counterexample): `SetFrameIndex` does not clamp below the span, and
the ping-pong boundary correction for a single-frame span is `end - 1`
with no clamp back into `[start, end]`. -/
theorem frameIndex_range_after_ops (p : Player) :
    (∀ tagName : String, WfFile p.file →
      (p.currentTag.IsEmpty = false → InRange p.currentTag p.frameIndex) →
      (p.Play tagName).2.2 = none →
      InRange (p.Play tagName).1.currentTag (p.Play tagName).1.frameIndex) ∧
    (∀ n : Int, 0 ≤ n → p.currentTag.IsEmpty = false →
      p.currentTag.start ≤ p.currentTag.«end» →
      InRange p.currentTag (p.SetFrameIndex n).frameIndex) ∧
    (∀ dt : ℚ, 0 ≤ dt → p.currentTag.IsEmpty = false →
      (p.playDirection = 1 ∨ p.playDirection = -1) →
      InRange p.currentTag p.frameIndex →
      (p.currentTag.direction = PlayPingPong → p.currentTag.start < p.currentTag.«end») →
      InRange p.currentTag (p.Update dt).1.frameIndex ∧
      (p.Update dt).1.currentTag = p.currentTag) :=
  ⟨fun tagName hwf hprev hok => Play_inRange p tagName hwf hprev hok,
   fun n hn hne hse => SetFrameIndex_inRange p n hne hn hse,
   fun dt _ hne hdir hin hpp => Update_inv p dt hne hdir hin hpp⟩

/-- C1 witness: the amended invariant evaluated on `playerC8` (tag `b`
spanning 2..3, at frame 2) for `Play "a"`, `SetFrameIndex 5` and
`Update 1`. -/
theorem frameIndex_range_after_ops_witness :
    InRange (playerC8.Play "a").1.currentTag (playerC8.Play "a").1.frameIndex ∧
    InRange playerC8.currentTag (playerC8.SetFrameIndex 5).frameIndex ∧
    InRange playerC8.currentTag (playerC8.Update 1).1.frameIndex := by
  have h := frameIndex_range_after_ops playerC8
  exact ⟨h.1 "a" (by decide) (by decide) (by decide),
    h.2.1 5 (by decide) (by decide) (by decide),
    (h.2.2 1 (by norm_num) (by decide) (by decide) (by decide) (by decide)).1⟩

/-- C1 counterexample: the claim as stated is false.  On the single-frame
ping-pong tag `tagOne` (`start = end = 0`), `Update 1` sets
`frameIndex = -1`, outside `[0, 0]` — the boundary-corrected index is NOT
clamped back into the span.  And `SetFrameIndex (-2)` on `tagB`
(spanning 2..3) sets `frameIndex = 0`, below the span. -/
theorem frameIndex_range_counterexample :
    (playerOne.Update 1).1.currentTag = tagOne ∧
    (playerOne.Update 1).1.frameIndex = -1 ∧
    ¬InRange tagOne (-1) ∧
    (playerC8.SetFrameIndex (-2)).currentTag = tagB ∧
    (playerC8.SetFrameIndex (-2)).frameIndex = 0 ∧
    ¬InRange tagB 0 := by
  have hf0 : frameAt framesOne 0 = { x := 0, y := 0, duration := 1 } := rfl
  refine ⟨?_, ?_, by decide, by decide, by decide, by decide⟩ <;>
    norm_num +decide [Player.Update, updateLoop, updateStep, applyBoundary,
      Player.pollTagChanges, Player.CurrentUVCoords, Player.CurrentFrame, Tag.IsEmpty,
      playerOne, fileOne, tagOne, File.CreatePlayer, PlayPingPong, hf0]

/-- C2: the code's `Play` records `PrevFrameIndex` the other way round
from the claim: with tag `a` already selected and `frameIndex = 3`,
`Play "b"` sets `PrevFrameIndex = -1` (the claim requires 3), and with no
tag selected it sets `PrevFrameIndex = frameIndex = 3` (the claim
requires −1).  The condition at line 167 is inverted: the previous
revision of this file used `if player.CurrentTag == nil`, which became
`if !player.CurrentTag.IsEmpty()` instead of `if player.CurrentTag.IsEmpty()`,
and the inversion also defeats the documented OnTagEnter behaviour on a
first `Play`. -/
theorem play_prevFrameIndex_inverted :
    playerWithTag.currentTag.IsEmpty = false ∧
    playerWithTag.frameIndex = 3 ∧
    (playerWithTag.Play "b").1.prevFrameIndex = -1 ∧
    playerNoTag.currentTag.IsEmpty = true ∧
    playerNoTag.frameIndex = 3 ∧
    (playerNoTag.Play "b").1.prevFrameIndex = 3 := by decide

/-- C3 (amended): `Update`'s catch-up loop compares `frameCounter` against
`frameDur` read ONCE, before the loop, from the frame `Update` started on,
and every iteration subtracts that same once-read value; the loop never
re-reads the frame table.  Formally: replacing the whole frame table,
keeping only the starting frame's entry, changes nothing in `Update`'s
result beyond the stored table itself. -/
theorem update_duration_once_read (p : Player) (dt : ℚ) (fr : List Frame)
    (hfr : frameAt fr p.frameIndex = frameAt p.file.frames p.frameIndex) :
    (setFrames p fr).Update dt = (setFrames (p.Update dt).1 fr, (p.Update dt).2) := by
  have h1 : (setFrames p fr).currentTag = p.currentTag := rfl
  have h2 : (setFrames p fr).frameCounter = p.frameCounter := rfl
  have h3 : (setFrames p fr).playSpeed = p.playSpeed := rfl
  have h4 : (setFrames p fr).frameIndex = p.frameIndex := rfl
  have h5 : (setFrames p fr).file.frames = fr := rfl
  have h6 : (setFrames p fr).file.width = p.file.width := rfl
  have h7 : (setFrames p fr).file.height = p.file.height := rfl
  by_cases hne : p.currentTag.IsEmpty
  · simp only [Player.Update, setFrames]
    simp [hne]
  · simp only [Bool.not_eq_true] at hne
    simp only [Player.Update, Player.CurrentUVCoords, Player.CurrentFrame,
      h1, h2, h3, h4, h5, h6, h7, hne, Bool.not_false, if_true]
    rw [hfr]
    rw [← updateLoop_setFrames]
    rfl

/-- C3 witness: `playerC3` starts on frame 0 (duration 1); replacing
frame 1's duration by 99 while keeping frame 0 leaves `Update 2`'s result
unchanged apart from the stored table. -/
theorem update_duration_once_read_witness :
    (setFrames playerC3 framesC3Alt).Update 2 =
      (setFrames (playerC3.Update 2).1 framesC3Alt, (playerC3.Update 2).2) :=
  update_duration_once_read playerC3 2 framesC3Alt rfl

/-- C3 counterexample: the claim as stated is false.  With durations
`[1, 10]`, a forward tag over frames 0..1, `frameIndex = 0`,
`frameCounter = 0` and `dt = 2`, the code (`Player.Update`) performs TWO
iterations — both against the once-read duration 1 — wrapping back to
frame 0 and firing one loop notification; the claim's re-read loop
(`UpdateReread`) would stop at frame 1 against its 10-second duration,
firing no loop. -/
theorem update_once_read_counterexample :
    (playerC3.Update 2).1.frameIndex = 0 ∧
    (playerC3.Update 2).2.count PlaybackEvent.loop = 1 ∧
    (UpdateReread 8 playerC3 2).1.frameIndex = 1 ∧
    (UpdateReread 8 playerC3 2).2.count PlaybackEvent.loop = 0 := by
  have hf0 : frameAt framesC3 0 = { x := 0, y := 0, duration := 1 } := rfl
  have hf1 : frameAt framesC3 1 = { x := 0, y := 0, duration := 10 } := rfl
  norm_num +decide [Player.Update, UpdateReread, updateLoop, updateLoopReread, updateStep,
    applyBoundary, Player.pollTagChanges, Player.CurrentUVCoords, Player.CurrentFrame,
    Tag.IsEmpty, playerC3, fileC3, tagC3, File.CreatePlayer, PlayPingPong, hf0, hf1]

/-- C4: for every player and every tag name carried by none of the file's
tags, `Play` returns the tag-not-found error and the state — every field —
is exactly the pre-call state; no events fire. -/
theorem play_missing_tag_unchanged (p : Player) (tagName : String)
    (habs : ∀ t ∈ p.file.tags, t.name ≠ tagName) :
    p.Play tagName = (p, [], some ErrorNoTagByName) := by
  have hfind : p.file.tags.find? (fun anim => anim.name == tagName) = none := by
    rw [List.find?_eq_none]
    intro t ht
    simpa using habs t ht
  simp [Player.Play, hfind]

/-- C4 witness: `Play "run"` on `playerNoTag` (whose file only has tags
`"a"` and `"b"`) errors and returns the state unchanged. -/
theorem play_missing_tag_unchanged_witness :
    playerNoTag.Play "run" = (playerNoTag, [], some ErrorNoTagByName) :=
  play_missing_tag_unchanged playerNoTag "run" (by decide)

/-- C5: a forward tag spanning frames 2..5 (uniform 1-second frames), at
frame 5 with `frameCounter` just exceeding frame 5's duration (any total
in `[1, 2)`), advances to frame 2 and raises exactly one loop
notification. -/
theorem forward_wrap_scenario (dt : ℚ) (h1 : 1 ≤ dt) (h2 : dt < 2) :
    (playerFW.Update dt).1.frameIndex = 2 ∧
    (playerFW.Update dt).1.currentTag = tagFW ∧
    (playerFW.Update dt).2 = [PlaybackEvent.loop] ∧
    (playerFW.Update dt).2.count PlaybackEvent.loop = 1 := by
  have hfa : frameAt framesFW 5 = { x := 0, y := 0, duration := 1 } := rfl
  have hfloor : ⌊dt⌋ = 1 := by
    rw [Int.floor_eq_iff]
    constructor <;> push_cast <;> linarith
  simp only [Player.Update, playerFW, File.CreatePlayer, Tag.IsEmpty, tagFW, Bool.not_false]
  norm_num +decide [hfa, updateLoop, updateStep, applyBoundary, Player.pollTagChanges,
    Player.CurrentUVCoords, Player.CurrentFrame, hfloor, PlayPingPong, tagFW, h1,
    Tag.IsEmpty, fileFW]

/-- C5 witness: the scenario evaluated at `dt = 3/2`. -/
theorem forward_wrap_scenario_witness :
    (playerFW.Update (3 / 2)).1.frameIndex = 2 ∧
    (playerFW.Update (3 / 2)).2 = [PlaybackEvent.loop] :=
  ⟨(forward_wrap_scenario (3 / 2) (by norm_num) (by norm_num)).1,
   (forward_wrap_scenario (3 / 2) (by norm_num) (by norm_num)).2.2.1⟩

/-- C6: on a ping-pong tag over frames 0..3 (uniform 1-second frames),
starting forward at 0 after `Play "pp"`, seven successive `Update 1` calls
traverse 0→1→2→3→2→1→0→1; the only loop notification of the whole cycle
fires at the lower-bound turn (seventh update), and none fires at the
upper-bound direction flip (fourth update). -/
theorem pingpong_cycle_scenario :
    (playerPPBase.Play "pp").1 = playerPP ∧
    traceUpdates 7 playerPP =
      [(1, 0), (2, 0), (3, 0), (2, 0), (1, 0), (0, 0), (1, 1)] := by
  have hf0 : frameAt framesPP 0 = { x := 0, y := 0, duration := 1 } := rfl
  have hf1 : frameAt framesPP 1 = { x := 0, y := 0, duration := 1 } := rfl
  have hf2 : frameAt framesPP 2 = { x := 0, y := 0, duration := 1 } := rfl
  have hf3 : frameAt framesPP 3 = { x := 0, y := 0, duration := 1 } := rfl
  refine ⟨by decide, ?_⟩
  norm_num +decide [traceUpdates, Player.Update, updateLoop, updateStep, applyBoundary,
    Player.pollTagChanges, Player.CurrentUVCoords, Player.CurrentFrame, Tag.IsEmpty,
    playerPP, filePP, tagPP, File.CreatePlayer, PlayPingPong, hf0, hf1, hf2, hf3]

/-- C7: `Play` of a tag name present in the file is idempotent — the
second call returns the first call's state unchanged, fires no callbacks
and returns no error. -/
theorem play_idempotent (p : Player) (tagName : String)
    (h : (p.file.tags.find? (fun anim => anim.name == tagName)).isSome) :
    (p.Play tagName).1.Play tagName = ((p.Play tagName).1, [], none) := by
  obtain ⟨anim, hfind⟩ := Option.isSome_iff_exists.mp h
  have hfile : (p.Play tagName).1.file = p.file := by
    simp only [Player.Play, hfind]
    split_ifs <;> rfl
  have hcur : (p.Play tagName).1.currentTag = anim := by
    simp only [Player.Play, hfind]
    split_ifs with heq <;> simp [heq]
  have hstep : ∀ q : Player, q.file = p.file → q.currentTag = anim →
      q.Play tagName = (q, [], none) := by
    intro q hqf hqc
    simp only [Player.Play, hqf, hfind, hqc, if_pos rfl, eq_self_iff_true, if_true]
  exact hstep _ hfile hcur

/-- C7 witness: playing `"b"` twice from `playerNoTag` — the second call
is a no-op on the state produced by the first. -/
theorem play_idempotent_witness :
    (playerNoTag.Play "b").1.Play "b" = ((playerNoTag.Play "b").1, [], none) :=
  play_idempotent playerNoTag "b" (by decide)

/-- C8 (amended): with a tag selected, `SetFrameIndex n` repositions
`frameIndex` to `min (currentTag.start + n) currentTag.end` — arguments
overshooting the span are clamped to `end`, but NEGATIVE arguments are not
clamped and land `start + n` below the span — resets `frameCounter` to 0
and changes nothing else; with no tag selected it is the identity. -/
theorem setFrameIndex_behavior_amended (p : Player) (n : Int) :
    (p.currentTag.IsEmpty = true → p.SetFrameIndex n = p) ∧
    (p.currentTag.IsEmpty = false →
      (p.SetFrameIndex n).frameIndex = min (p.currentTag.start + n) p.currentTag.«end» ∧
      (p.SetFrameIndex n).frameCounter = 0 ∧
      (p.SetFrameIndex n).currentTag = p.currentTag ∧
      (p.SetFrameIndex n).prevFrameIndex = p.prevFrameIndex ∧
      (p.SetFrameIndex n).playDirection = p.playDirection ∧
      (p.SetFrameIndex n).file = p.file) := by
  constructor
  · intro h
    simp [Player.SetFrameIndex, h]
  · intro h
    have hfi : (p.SetFrameIndex n).frameIndex =
        min (p.currentTag.start + n) p.currentTag.«end» := by
      simp only [Player.SetFrameIndex, h, Bool.not_false, if_true]
      split_ifs with hgt <;> dsimp only <;> omega
    refine ⟨hfi, ?_, ?_, ?_, ?_, ?_⟩ <;>
      simp only [Player.SetFrameIndex, h, Bool.not_false, if_true] <;> split_ifs <;> rfl

/-- C8 witness: on `playerC8` (tag `b` spanning 2..3), `SetFrameIndex 7`
clamps to 3 and zeroes the counter; with no tag (`playerNoTag`) the call
is the identity. -/
theorem setFrameIndex_behavior_amended_witness :
    (playerC8.SetFrameIndex 7).frameIndex = min (2 + 7) 3 ∧
    (playerC8.SetFrameIndex 7).frameCounter = 0 ∧
    playerNoTag.SetFrameIndex 7 = playerNoTag := by
  have h := setFrameIndex_behavior_amended playerC8 7
  have h2 := setFrameIndex_behavior_amended playerNoTag 7
  exact ⟨(h.2 (by decide)).1, (h.2 (by decide)).2.1, h2.1 (by decide)⟩

/-- C8 counterexample: the claim as stated is false — `SetFrameIndex (-1)`
on tag `b` (spanning 2..3) yields `frameIndex = 1`, below the span, so an
out-of-range argument is NOT always clamped back into the tag's range. -/
theorem setFrameIndex_negative_counterexample :
    playerC8.currentTag = tagB ∧
    (playerC8.SetFrameIndex (-1)).frameIndex = 1 ∧
    ¬InRange tagB 1 := by decide

/-- C9: `Read` orders frames by the numeric ordinal embedded in each
frame-name key (the integer between the last space and the last dot), not
lexically: whatever order the map iteration hands the keys
`"s 1.png", "s 2.png", "s 10.png"` to the sort, the sorted order is
1, 2, 10 (a lexical sort would give 1, 10, 2). -/
theorem frame_order_numeric :
    frameKeyOrdinal "s 1.png" = 1 ∧
    frameKeyOrdinal "s 2.png" = 2 ∧
    frameKeyOrdinal "s 10.png" = 10 ∧
    sortFrameNames ["s 1.png", "s 2.png", "s 10.png"] =
      ["s 1.png", "s 2.png", "s 10.png"] ∧
    sortFrameNames ["s 1.png", "s 10.png", "s 2.png"] =
      ["s 1.png", "s 2.png", "s 10.png"] ∧
    sortFrameNames ["s 2.png", "s 1.png", "s 10.png"] =
      ["s 1.png", "s 2.png", "s 10.png"] ∧
    sortFrameNames ["s 2.png", "s 10.png", "s 1.png"] =
      ["s 1.png", "s 2.png", "s 10.png"] ∧
    sortFrameNames ["s 10.png", "s 1.png", "s 2.png"] =
      ["s 1.png", "s 2.png", "s 10.png"] ∧
    sortFrameNames ["s 10.png", "s 2.png", "s 1.png"] =
      ["s 1.png", "s 2.png", "s 10.png"] := by decide

/-- C10: `Clone` copies `File`, `PlaySpeed`, `CurrentTag`, `FrameIndex`,
`frameCounter` and the four callbacks, but not `PrevFrameIndex`: the
clone's `PrevFrameIndex` is 0 whatever the original's was (and likewise
`playDirection` and the internal UV memory are reset to zero), so
`prevFrameIndex`-based tag-edge evaluation on a fresh clone can disagree
with the original until the clone's next advance. -/
theorem clone_fields (p : Player) :
    p.Clone.file = p.file ∧
    p.Clone.playSpeed = p.playSpeed ∧
    p.Clone.currentTag = p.currentTag ∧
    p.Clone.frameIndex = p.frameIndex ∧
    p.Clone.frameCounter = p.frameCounter ∧
    p.Clone.onLoop = p.onLoop ∧
    p.Clone.onFrameChange = p.onFrameChange ∧
    p.Clone.onTagEnter = p.onTagEnter ∧
    p.Clone.onTagExit = p.onTagExit ∧
    p.Clone.prevFrameIndex = 0 ∧
    p.Clone.playDirection = 0 ∧
    p.Clone.prevUVX = 0 ∧
    p.Clone.prevUVY = 0 :=
  ⟨rfl, rfl, rfl, rfl, rfl, rfl, rfl, rfl, rfl, rfl, rfl, rfl, rfl⟩

end Goaseprite
